import Mathlib

/-!
Verification of the Scoundrel rules engine and game-state model.

The definitions below are a shallow embedding of `src/scoundrel/models.py`
and `src/scoundrel/engines/rules.py` (class `StandardRulesEngine`):

* Python ints are `Int` (ranks carry no range validation in the source);
  counters that only ever grow from 0 (`potions_used`, `bottomed_cards`)
  are `Nat`.
* Mutating methods become functions from the old value to the new value.
  A method that can raise (`Room.interacted`, `Deck.draw`) returns an
  `Option`; a handler whose body can raise partway through returns the
  state as left at the raise point paired with a `Bool` that is `true`
  exactly when the exception propagated.
* The `while` loop in `handle_next_room` is embedded as `fillRoomAux`
  with a fuel argument equal to the deck size: each loop iteration pops
  one card off the deck, so `deck.length` bounds the iteration count and
  the fuel never runs out before the loop condition turns false.
-/

namespace Scoundrel

inductive Suit where
  | SPADES
  | CLUBS
  | DIAMONDS
  | HEARTS
deriving DecidableEq

/-- `Suit.value.upper()` as used by `Card.card_id` in `models.py`. -/
def Suit.str : Suit → String
  | .SPADES => "SPADES"
  | .CLUBS => "CLUBS"
  | .DIAMONDS => "DIAMONDS"
  | .HEARTS => "HEARTS"

/-- `Card.card_id`: deterministic id `f"{suit}_{rank}"`. -/
def cardId (suit : Suit) (rank : Int) : String :=
  suit.str ++ "_" ++ toString rank

/-- `Monster(Card)` from `models.py`. -/
structure Monster where
  suit : Suit
  rank : Int
  name : String
  emoji : Option String := none
deriving DecidableEq

def Monster.card_id (m : Monster) : String := cardId m.suit m.rank

/-- `Monster.strength`: base strength is tied to rank. -/
def Monster.strength (m : Monster) : Int := m.rank

/-- `Potion(Card)` from `models.py`. -/
structure Potion where
  suit : Suit
  rank : Int
  name : String
  emoji : Option String := none
deriving DecidableEq

def Potion.card_id (p : Potion) : String := cardId p.suit p.rank

/-- `Potion.potency`: the amount of health restored. -/
def Potion.potency (p : Potion) : Int := p.rank

/-- `Weapon(Card)` from `models.py`. -/
structure Weapon where
  suit : Suit
  rank : Int
  name : String
  emoji : Option String := none
deriving DecidableEq

def Weapon.card_id (w : Weapon) : String := cardId w.suit w.rank

/-- `Weapon.protection`: the protection this weapon offers. -/
def Weapon.protection (w : Weapon) : Int := w.rank

/-- `AnyCard = Union[Monster, Potion, Weapon]` (closed, discriminated). -/
inductive AnyCard where
  | monster (m : Monster)
  | potion (p : Potion)
  | weapon (w : Weapon)
deriving DecidableEq

def AnyCard.card_id : AnyCard → String
  | .monster m => m.card_id
  | .potion p => p.card_id
  | .weapon w => w.card_id

/-- `isinstance(c, Monster)`. -/
def AnyCard.isMonster : AnyCard → Bool
  | .monster _ => true
  | _ => false

/-- `isinstance(c, Potion)`. -/
def AnyCard.isPotion : AnyCard → Bool
  | .potion _ => true
  | _ => false

/-- `isinstance(c, Weapon)`. -/
def AnyCard.isWeapon : AnyCard → Bool
  | .weapon _ => true
  | _ => false

/-- `EquippedWeapon` from `models.py`. -/
structure EquippedWeapon where
  weapon : Weapon
  slain_monsters : List Monster := []
deriving DecidableEq

/-- `self.slain_monsters[-1] if self.slain_monsters else None`. -/
def EquippedWeapon.last_slain_monster (e : EquippedWeapon) : Option Monster :=
  e.slain_monsters.getLast?

/-- `Player` from `models.py`. -/
structure Player where
  max_life : Int := 20
  current_life : Int := 20
  equipped : Option EquippedWeapon := none
deriving DecidableEq

/-- `Player.has_weapon`. -/
def Player.has_weapon (p : Player) : Bool := p.equipped.isSome

/-- `Room` from `models.py`. -/
structure Room where
  cards : List AnyCard := []
  potions_used : Nat := 0
deriving DecidableEq

/-- `Room.remaining`. -/
def Room.remaining (r : Room) : Nat := r.cards.length

/-- `Room.exists`: `card.card_id in [c.card_id for c in self.cards]`
(named `exists_card` because `exists` is a Lean keyword). -/
def Room.exists_card (r : Room) (card : AnyCard) : Bool :=
  (r.cards.map AnyCard.card_id).contains card.card_id

/-- `Room.interacted`: remove the first card whose `card_id` matches;
`none` models the `ValueError` raised when no card matches. -/
def Room.interacted (r : Room) (card : AnyCard) : Option Room :=
  match r.cards.findIdx? (fun c => c.card_id == card.card_id) with
  | some idx => some { r with cards := r.cards.eraseIdx idx }
  | none => none

/-- `DeckComposition` from `models.py`. -/
structure DeckComposition where
  monsters : Nat
  potions : Nat
  weapons : Nat
deriving DecidableEq

/-- `DeckComposition.total`. -/
def DeckComposition.total (c : DeckComposition) : Nat :=
  c.monsters + c.potions + c.weapons

/-- `Deck` from `models.py`. -/
structure Deck where
  cards : List AnyCard := []
  bottomed_cards : Nat := 0
deriving DecidableEq

/-- `Deck.remaining`. -/
def Deck.remaining (d : Deck) : Nat := d.cards.length

/-- `Deck.is_empty`. -/
def Deck.is_empty (d : Deck) : Bool := d.cards.isEmpty

/-- `Deck.draw`: `self.cards.pop()` removes and returns the last element
(the "top"); `none` models the `DeckEmptyError`. -/
def Deck.draw (d : Deck) : Option (AnyCard × Deck) :=
  match d.cards.getLast? with
  | some c => some (c, { d with cards := d.cards.dropLast })
  | none => none

/-- `Deck.composition`: recomputed on demand from the current contents. -/
def Deck.composition (d : Deck) : DeckComposition :=
  { monsters := d.cards.countP (fun c => c.isMonster)
    potions := d.cards.countP (fun c => c.isPotion)
    weapons := d.cards.countP (fun c => c.isWeapon) }

/-- `Deck.to_bottom`: `for card in cards: self.cards.insert(0, card);
self.bottomed_cards += 1`. -/
def Deck.to_bottom (d : Deck) (cs : List AnyCard) : Deck :=
  cs.foldl
    (fun acc c =>
      { acc with cards := c :: acc.cards, bottomed_cards := acc.bottomed_cards + 1 })
    d

/-- `GameState` from `models.py`. -/
structure GameState where
  player : Player
  deck : Deck
  room : Room
  discard_pile : List AnyCard := []
  slain_monsters : List Monster := []
  last_room_fled : Bool := false
deriving DecidableEq

/-- `GameState.total_slain_count`. -/
def GameState.total_slain_count (s : GameState) : Nat :=
  s.slain_monsters.length

/-- `ActionPreview` from `models.py`. -/
structure ActionPreview where
  damage_taken : Int := 0
  healing_received : Int := 0
  is_lethal : Bool := false
deriving DecidableEq

namespace StandardRulesEngine

/-- `sum(card.strength for card in cards if isinstance(card, Monster))`. -/
def monsterStrengthSum (cards : List AnyCard) : Int :=
  (cards.filterMap (fun c =>
    match c with
    | .monster m => some m.strength
    | _ => none)).sum

/-- `sum(card.potency for card in cards if isinstance(card, Potion))`. -/
def potionPotencySum (cards : List AnyCard) : Int :=
  (cards.filterMap (fun c =>
    match c with
    | .potion p => some p.potency
    | _ => none)).sum

/-- `StandardRulesEngine.is_game_over`. -/
def is_game_over (s : GameState) : Option Int :=
  if s.player.current_life > 0 then none
  else some (s.player.current_life - monsterStrengthSum s.deck.cards)

/-- `StandardRulesEngine.is_victory`. -/
def is_victory (s : GameState) : Option Int :=
  if s.deck.remaining > 0 then none
  else if s.room.remaining > 1 then none
  else some (s.player.current_life + potionPotencySum s.room.cards)

/-- `StandardRulesEngine._weapon_effective` (source name starts with an
underscore, dropped here). -/
def weapon_effective (monster : Monster) (weapon : EquippedWeapon) : Bool :=
  match weapon.last_slain_monster with
  | none => true
  | some last => decide (monster.rank < last.rank)

/-- `StandardRulesEngine._monster_damage`. -/
def monster_damage (monster : Monster) (weapon : Option EquippedWeapon)
    (use_weapon : Bool) : Int :=
  if !use_weapon then monster.strength
  else
    match weapon with
    | none => monster.strength
    | some w =>
      if weapon_effective monster w then max 0 (monster.strength - w.weapon.protection)
      else monster.strength

/-- `StandardRulesEngine.preview_attack`. -/
def preview_attack (s : GameState) (monster : Monster) (use_weapon : Bool) :
    ActionPreview :=
  let damage := monster_damage monster s.player.equipped use_weapon
  { damage_taken := damage
    is_lethal := decide (damage ≥ s.player.current_life) }

/-- `StandardRulesEngine.can_attack_monster`. -/
def can_attack_monster (s : GameState) (monster : Monster) (use_weapon : Bool) :
    Bool :=
  if !(s.room.exists_card (.monster monster)) then false
  else if use_weapon && !s.player.has_weapon then false
  else if use_weapon &&
      (match s.player.equipped with
       | some w => !(weapon_effective monster w)
       | none => false) then false
  else true

/-- `StandardRulesEngine.handle_monster_attack`; the second component is
`true` exactly when `Room.interacted` raised, the first is the state as
left at that point (the damage and slain-history mutations precede the
removal in the source). -/
def handle_monster_attack (s : GameState) (monster : Monster) (use_weapon : Bool) :
    GameState × Bool :=
  let preview := preview_attack s monster use_weapon
  let s1 : GameState :=
    { s with player :=
        { s.player with current_life := s.player.current_life - preview.damage_taken } }
  let s2 : GameState :=
    if use_weapon then
      match s1.player.equipped with
      | some w =>
        { s1 with player :=
            { s1.player with equipped :=
                (some { w with slain_monsters := w.slain_monsters ++ [monster] }) } }
      | none => s1
    else s1
  match s2.room.interacted (.monster monster) with
  | some room => ({ s2 with room := room }, false)
  | none => (s2, true)

/-- `StandardRulesEngine.preview_potion`. -/
def preview_potion (s : GameState) (potion : Potion) : ActionPreview :=
  if s.room.potions_used > 0 then {}
  else
    let current_hp := s.player.current_life
    let max_hp := s.player.max_life
    let potential_new_hp := min max_hp (current_hp + potion.potency)
    { healing_received := potential_new_hp - current_hp }

/-- `StandardRulesEngine.can_drink_potion`. -/
def can_drink_potion (s : GameState) (potion : Potion) : Bool :=
  s.room.exists_card (.potion potion)

/-- `StandardRulesEngine.handle_drink_potion`; pair component as in
`handle_monster_attack` (healing and the `potions_used` increment precede
the removal in the source). -/
def handle_drink_potion (s : GameState) (potion : Potion) : GameState × Bool :=
  let preview := preview_potion s potion
  let s1 : GameState :=
    { s with player :=
        { s.player with current_life := s.player.current_life + preview.healing_received } }
  let s2 : GameState :=
    { s1 with room := { s1.room with potions_used := s1.room.potions_used + 1 } }
  match s2.room.interacted (.potion potion) with
  | some room => ({ s2 with room := room }, false)
  | none => (s2, true)

/-- `StandardRulesEngine.can_equip_weapon`. -/
def can_equip_weapon (s : GameState) (weapon : Weapon) : Bool :=
  s.room.exists_card (.weapon weapon)

/-- `StandardRulesEngine.handle_equip_weapon`: defensively re-checks and
returns the state unchanged when illegal. -/
def handle_equip_weapon (s : GameState) (weapon : Weapon) : GameState × Bool :=
  if !(can_equip_weapon s weapon) then (s, false)
  else
    let s1 : GameState :=
      { s with player :=
          { s.player with equipped := (some { weapon := weapon, slain_monsters := [] }) } }
    match s1.room.interacted (.weapon weapon) with
    | some room => ({ s1 with room := room }, false)
    | none => (s1, true)

/-- `StandardRulesEngine.can_flee_room`. -/
def can_flee_room (s : GameState) : Bool :=
  if s.room.cards.length ≠ 4 then false
  else if s.last_room_fled then false
  else true

/-- `StandardRulesEngine.handle_flee_room`: defensively re-checks and
returns the state unchanged when illegal. -/
def handle_flee_room (s : GameState) : GameState :=
  if !(can_flee_room s) then s
  else
    { s with deck := s.deck.to_bottom s.room.cards,
             room := { s.room with cards := [] },
             last_room_fled := true }

/-- `StandardRulesEngine.next_room_available`. -/
def next_room_available (s : GameState) : Bool :=
  decide (s.room.cards.length ≤ 1)

/-- The `while len(room) < 4 and deck.remaining > 0: room.append(deck.draw())`
loop of `handle_next_room`, with fuel: each iteration pops the deck's last
element, so fuel `deck.length` (as passed by `fillRoom`) never runs out
before the loop condition turns false. -/
def fillRoomAux : Nat → List AnyCard → List AnyCard → List AnyCard × List AnyCard
  | 0, room, deck => (room, deck)
  | fuel + 1, room, deck =>
    if h : room.length < 4 ∧ deck ≠ [] then
      fillRoomAux fuel (room ++ [deck.getLast h.2]) deck.dropLast
    else (room, deck)

def fillRoom (room : List AnyCard) (deck : List AnyCard) :
    List AnyCard × List AnyCard :=
  fillRoomAux deck.length room deck

/-- `StandardRulesEngine.handle_next_room`: re-checks availability, clears
`last_room_fled` only when the room was non-empty, resets `potions_used`,
then refills the room from the top of the deck. -/
def handle_next_room (s : GameState) : GameState :=
  if !(next_room_available s) then s
  else
    let s1 : GameState :=
      if s.room.cards.length ≠ 0 then { s with last_room_fled := false } else s
    let filled := fillRoom s1.room.cards s1.deck.cards
    { s1 with room := { s1.room with potions_used := 0, cards := filled.1 },
              deck := { s1.deck with cards := filled.2 } }

end StandardRulesEngine

end Scoundrel

namespace Scoundrel

/-! Spec-side formulations used on the right-hand side of theorems, written
from the spec's wording of the scoring sums, to be compared with the
engine's comprehensions. -/

/-- "Score = current_life + Σ(potency of every Potion still in the room)". -/
def specPotionBonus (cards : List AnyCard) : Int :=
  (cards.map (fun c =>
    match c with
    | .potion p => p.potency
    | _ => 0)).sum

/-- "Score = current_life − Σ(strength of every Monster still in the deck)". -/
def specMonsterPenalty (cards : List AnyCard) : Int :=
  (cards.map (fun c =>
    match c with
    | .monster m => m.strength
    | _ => 0)).sum

/-! Concrete cards, decks and states for counterexamples and witnesses. -/

def cardA : AnyCard := .monster { suit := .SPADES, rank := 2, name := "A" }

def cardB : AnyCard := .monster { suit := .SPADES, rank := 3, name := "B" }

def cardX : AnyCard := .monster { suit := .CLUBS, rank := 4, name := "X" }

def deckX : Deck := { cards := [cardX] }

def monsterC : Monster := { suit := .SPADES, rank := 5, name := "C" }

def potionD : Potion := { suit := .HEARTS, rank := 5, name := "D" }

def potionH : Potion := { suit := .HEARTS, rank := 8, name := "H" }

/-- A state whose room is empty: `monsterC` and `potionD` are absent. -/
def sEmptyRoom : GameState :=
  { player := {}, deck := {}, room := {} }

/-- A state with a 2-card, partially used room and a non-empty deck. -/
def sTwoCards : GameState :=
  { player := {},
    deck := { cards := [cardX] },
    room := { cards := [cardA, cardB], potions_used := 1 } }

/-- Life 18 of 20, one rank-5 potion in the room, one potion already used. -/
def sPotUsed : GameState :=
  { player := { max_life := 20, current_life := 18 },
    deck := {},
    room := { cards := [AnyCard.potion potionD], potions_used := 1 } }

/-- Life 15 of 20, one rank-8 potion in the room, no potion used yet. -/
def sPotFresh : GameState :=
  { player := { max_life := 20, current_life := 15 },
    deck := {},
    room := { cards := [AnyCard.potion potionH], potions_used := 0 } }

/-! Helper lemmas about the container model. -/

theorem Deck.to_bottom_cards (d : Deck) (cs : List AnyCard) :
    (d.to_bottom cs).cards = cs.reverse ++ d.cards := by
  induction cs generalizing d with
  | nil => rfl
  | cons c cs ih =>
    have h : Deck.to_bottom d (c :: cs) =
        Deck.to_bottom { cards := c :: d.cards, bottomed_cards := d.bottomed_cards + 1 } cs :=
      rfl
    rw [h, ih]
    simp

theorem Deck.to_bottom_bottomed (d : Deck) (cs : List AnyCard) :
    (d.to_bottom cs).bottomed_cards = d.bottomed_cards + cs.length := by
  induction cs generalizing d with
  | nil => rfl
  | cons c cs ih =>
    have h : Deck.to_bottom d (c :: cs) =
        Deck.to_bottom { cards := c :: d.cards, bottomed_cards := d.bottomed_cards + 1 } cs :=
      rfl
    rw [h, ih]
    simp
    omega

theorem Room.exists_card_iff (r : Room) (c : AnyCard) :
    r.exists_card c = true ↔ ∃ x ∈ r.cards, x.card_id = c.card_id := by
  unfold Room.exists_card
  simp [List.mem_map]

theorem Room.interacted_eq_none (r : Room) (c : AnyCard)
    (h : r.exists_card c = false) : r.interacted c = none := by
  unfold Room.interacted
  have hn : r.cards.findIdx? (fun x => x.card_id == c.card_id) = none := by
    rw [List.findIdx?_eq_none_iff]
    intro x hx
    have : ¬ ∃ x ∈ r.cards, x.card_id = c.card_id := by
      rw [← Room.exists_card_iff]
      simp [h]
    simp only [beq_eq_false_iff_ne, ne_eq]
    intro he
    exact this ⟨x, hx, he⟩
  rw [hn]

theorem findIdx_erase_of_mem (cs : List AnyCard) (cid : String)
    (h : ∃ x ∈ cs, x.card_id = cid) :
    ∃ i, cs.findIdx? (fun x => x.card_id == cid) = some i ∧
      (cs.eraseIdx i).length + 1 = cs.length := by
  induction cs with
  | nil => simp at h
  | cons a as ih =>
    by_cases hp : a.card_id = cid
    · refine ⟨0, ?_, ?_⟩
      · simp [List.findIdx?_cons, hp]
      · simp [List.eraseIdx]
    · have h2 : ∃ x ∈ as, x.card_id = cid := by
        obtain ⟨x, hx, he⟩ := h
        cases hx with
        | head => exact absurd he hp
        | tail _ hx2 => exact ⟨x, hx2, he⟩
      obtain ⟨i, hi, hl⟩ := ih h2
      refine ⟨i + 1, ?_, ?_⟩
      · rw [List.findIdx?_cons]
        simp [hp, List.findIdx?_succ, hi]
      · simp only [List.eraseIdx]
        simpa using hl

theorem Room.interacted_of_exists (r : Room) (c : AnyCard)
    (h : r.exists_card c = true) :
    ∃ r2, r.interacted c = some r2 ∧ r2.cards.length + 1 = r.cards.length ∧
      r2.potions_used = r.potions_used := by
  obtain ⟨i, hi, hl⟩ := findIdx_erase_of_mem r.cards c.card_id
    ((Room.exists_card_iff r c).mp h)
  refine ⟨{ r with cards := r.cards.eraseIdx i }, ?_, hl, rfl⟩
  unfold Room.interacted
  rw [hi]

theorem countP_kinds_partition (cs : List AnyCard) :
    cs.countP (fun c => c.isMonster) + cs.countP (fun c => c.isPotion) +
      cs.countP (fun c => c.isWeapon) = cs.length := by
  induction cs with
  | nil => rfl
  | cons c cs ih =>
    simp only [List.countP_cons, List.length_cons, AnyCard.isMonster, AnyCard.isPotion,
      AnyCard.isWeapon] at ih ⊢
    cases c <;> simp <;> omega

namespace StandardRulesEngine

theorem potionPotencySum_eq (cards : List AnyCard) :
    potionPotencySum cards = specPotionBonus cards := by
  induction cards with
  | nil => rfl
  | cons c cs ih =>
    cases c <;> simp [potionPotencySum, specPotionBonus, List.filterMap_cons] at * <;>
      omega

theorem monsterStrengthSum_eq (cards : List AnyCard) :
    monsterStrengthSum cards = specMonsterPenalty cards := by
  induction cards with
  | nil => rfl
  | cons c cs ih =>
    cases c <;> simp [monsterStrengthSum, specMonsterPenalty, List.filterMap_cons] at * <;>
      omega

/-- Claim C10: for every deck, the on-demand composition partitions the
cards exactly: monsters + potions + weapons (= composition.total) equals
`deck.remaining`, because every card is exactly one of the three closed
kinds; since this holds for every deck value, it holds after any sequence
of draw, shuffle and to_bottom operations. -/
theorem composition_partitions_deck :
    ∀ d : Deck,
      d.composition.monsters + d.composition.potions + d.composition.weapons =
          d.remaining ∧
        d.composition.total = d.remaining := by
  intro d
  have h := countP_kinds_partition d.cards
  exact ⟨h, h⟩

/-- Claim C5: `is_victory` returns a score exactly when the deck is empty
and at most one card remains in the room, and the score is
`current_life` plus the potency of every potion still in the room;
otherwise it returns none. -/
theorem is_victory_spec :
    ∀ s : GameState,
      is_victory s =
        if s.deck.remaining = 0 ∧ s.room.remaining ≤ 1 then
          some (s.player.current_life + specPotionBonus s.room.cards)
        else none := by
  intro s
  unfold is_victory
  rw [potionPotencySum_eq]
  by_cases h1 : s.deck.remaining = 0
  · by_cases h2 : s.room.remaining ≤ 1
    · have hna : ¬ s.deck.remaining > 0 := by omega
      have hnb : ¬ s.room.remaining > 1 := by omega
      rw [if_neg hna, if_neg hnb, if_pos ⟨h1, h2⟩]
    · have hna : ¬ s.deck.remaining > 0 := by omega
      have hb : s.room.remaining > 1 := by omega
      rw [if_neg hna, if_pos hb, if_neg (fun hc => h2 hc.2)]
  · have ha : s.deck.remaining > 0 := by omega
    rw [if_pos ha, if_neg (fun hc => h1 hc.1)]

/-- Claim C6: `is_game_over` returns a score exactly when `current_life ≤ 0`,
the score is `current_life` minus the strength of every monster still in
the draw pile, and the result is unchanged by the room's contents and the
discard pile (monsters outside the deck never count toward the penalty). -/
theorem is_game_over_spec :
    (∀ s : GameState,
        is_game_over s =
          if s.player.current_life ≤ 0 then
            some (s.player.current_life - specMonsterPenalty s.deck.cards)
          else none) ∧
    (∀ (s : GameState) (r : Room), is_game_over { s with room := r } = is_game_over s) ∧
    (∀ (s : GameState) (cs : List AnyCard),
        is_game_over { s with discard_pile := cs } = is_game_over s) := by
  refine ⟨?_, fun s r => rfl, fun s cs => rfl⟩
  intro s
  unfold is_game_over
  rw [monsterStrengthSum_eq]
  by_cases h : s.player.current_life ≤ 0
  · rw [if_neg (by omega), if_pos h]
  · rw [if_pos (by omega), if_neg h]

end StandardRulesEngine

end Scoundrel

namespace Scoundrel

namespace StandardRulesEngine

/-! Helper lemmas about the flee / room-transition state machine. -/

theorem can_flee_room_iff (s : GameState) :
    can_flee_room s = true ↔ s.room.cards.length = 4 ∧ s.last_room_fled = false := by
  unfold can_flee_room
  cases hf : s.last_room_fled <;> by_cases h4 : s.room.cards.length = 4 <;> simp [hf, h4]

theorem can_flee_room_false_of_fled (s : GameState) (h : s.last_room_fled = true) :
    can_flee_room s = false := by
  unfold can_flee_room
  by_cases h4 : s.room.cards.length = 4 <;> simp [h4, h]

theorem handle_flee_room_eq (s : GameState) (h : can_flee_room s = true) :
    handle_flee_room s =
      { s with deck := s.deck.to_bottom s.room.cards,
               room := { s.room with cards := [] },
               last_room_fled := true } := by
  unfold handle_flee_room
  rw [h]
  rfl

theorem handle_next_room_fled_nil (s : GameState) (h : s.room.cards = []) :
    (handle_next_room s).last_room_fled = s.last_room_fled := by
  simp [handle_next_room, next_room_available, h]

theorem handle_next_room_fled_one (s : GameState) (h : s.room.cards.length = 1) :
    (handle_next_room s).last_room_fled = false := by
  simp [handle_next_room, next_room_available, h]

end StandardRulesEngine

end Scoundrel

namespace Scoundrel

namespace StandardRulesEngine

/-- Claim C1 (counterexample): on deck `[cardX]`, `to_bottom [cardA, cardB]`
yields the card list `[cardB, cardA, cardX]`. `draw` pops the LAST list
element (the top), so a greater index is closer to the top; the last input
card `cardB` sits at index 0 — the very bottom, strictly farther from the
top than the earlier input card `cardA` at index 1 — refuting "the last
card of the input list ends up closest to the top of the remaining deck
among the bottomed cards". -/
theorem to_bottom_last_input_at_bottom_cex :
    (deckX.to_bottom [cardA, cardB]).cards = [cardB, cardA, cardX] ∧
    (deckX.to_bottom [cardA, cardB]).cards.indexOf cardB <
      (deckX.to_bottom [cardA, cardB]).cards.indexOf cardA := by
  decide

/-- Claim C1 (amended): `to_bottom` inserts each input card at index 0 of
the deck's card sequence in input order and increments `bottomed_cards`
once per card, so the resulting sequence is the reversed input followed by
the old cards: the LAST input card ends at the very bottom (head of the
list, farthest from the drawing end) and the FIRST input card ends closest
to the top among the bottomed cards; after fleeing a 4-card room the 4
cards lie at the bottom of the deck in reverse-of-input order. -/
theorem to_bottom_order_and_flee :
    (∀ (d : Deck) (cs : List AnyCard),
        (d.to_bottom cs).cards = cs.reverse ++ d.cards ∧
        (d.to_bottom cs).bottomed_cards = d.bottomed_cards + cs.length) ∧
    (∀ (d : Deck) (cs : List AnyCard),
        cs ≠ [] → (d.to_bottom cs).cards.head? = cs.getLast?) ∧
    (∀ s : GameState, can_flee_room s = true →
        (handle_flee_room s).room.cards = [] ∧
        (handle_flee_room s).last_room_fled = true ∧
        (handle_flee_room s).deck.cards = s.room.cards.reverse ++ s.deck.cards ∧
        (handle_flee_room s).deck.bottomed_cards = s.deck.bottomed_cards + 4) := by
  refine ⟨fun d cs => ⟨Deck.to_bottom_cards d cs, Deck.to_bottom_bottomed d cs⟩, ?_, ?_⟩
  · intro d cs h
    rw [Deck.to_bottom_cards, ← List.head?_reverse]
    cases hr : cs.reverse with
    | nil => exact absurd (by simpa using hr) h
    | cons a t => simp [hr]
  · intro s h
    have h4 : s.room.cards.length = 4 := ((can_flee_room_iff s).mp h).1
    rw [handle_flee_room_eq s h]
    refine ⟨rfl, rfl, Deck.to_bottom_cards _ _, ?_⟩
    rw [Deck.to_bottom_bottomed, h4]

/-- Claim C2 (counterexample): `handle_next_room` DOES independently
re-check its availability precondition: on a 2-card room
(`next_room_available` false) it returns the state unchanged — the
`potions_used` counter stays 1 and no card is drawn from the non-empty
deck — rather than applying its effects. -/
theorem handle_next_room_revalidates_cex :
    next_room_available sTwoCards = false ∧
    handle_next_room sTwoCards = sTwoCards ∧
    ¬ (handle_next_room sTwoCards).room.potions_used = 0 := by
  refine ⟨rfl, rfl, by decide⟩

/-- Claim C2 (amended): three handlers re-check their paired precondition
and no-op when it is false — `handle_equip_weapon`, `handle_flee_room` and
`handle_next_room` — while `handle_monster_attack` and
`handle_drink_potion` apply their effects without re-validating (shown on
concrete states whose room lacks the targeted card: the attack still
subtracts damage, the drink still increments `potions_used`). -/
theorem handler_revalidation :
    (∀ (s : GameState) (w : Weapon), can_equip_weapon s w = false →
        handle_equip_weapon s w = (s, false)) ∧
    (∀ s : GameState, can_flee_room s = false → handle_flee_room s = s) ∧
    (∀ s : GameState, next_room_available s = false → handle_next_room s = s) ∧
    (can_attack_monster sEmptyRoom monsterC false = false ∧
      (handle_monster_attack sEmptyRoom monsterC false).1 ≠ sEmptyRoom) ∧
    (can_drink_potion sEmptyRoom potionD = false ∧
      (handle_drink_potion sEmptyRoom potionD).1 ≠ sEmptyRoom) := by
  refine ⟨?_, ?_, ?_, ⟨by decide, by decide⟩, ⟨by decide, by decide⟩⟩
  · intro s w h
    simp [handle_equip_weapon, h]
  · intro s h
    simp [handle_flee_room, h]
  · intro s h
    simp [handle_next_room, h]

/-- Claim C7: `can_flee_room` is true exactly on an untouched 4-card room
with the flee flag clear; a legal flee empties the room, sets the flag and
makes fleeing illegal; the following `handle_next_room` (on the now-empty
room) keeps the flag set, so fleeing is still illegal in the next room;
`handle_next_room` on a 1-card room clears the flag; and no other handler
ever changes the flag — so two flees can never occur in consecutive
rooms. -/
theorem flee_alternation :
    (∀ s : GameState,
        can_flee_room s = true ↔ s.room.cards.length = 4 ∧ s.last_room_fled = false) ∧
    (∀ s : GameState, can_flee_room s = true →
        (handle_flee_room s).room.cards = [] ∧
        (handle_flee_room s).last_room_fled = true ∧
        can_flee_room (handle_flee_room s) = false ∧
        (handle_next_room (handle_flee_room s)).last_room_fled = true ∧
        can_flee_room (handle_next_room (handle_flee_room s)) = false) ∧
    (∀ s : GameState, s.room.cards.length = 1 →
        (handle_next_room s).last_room_fled = false) ∧
    (∀ s : GameState, s.room.cards = [] →
        (handle_next_room s).last_room_fled = s.last_room_fled) ∧
    (∀ (s : GameState) (m : Monster) (u : Bool),
        (handle_monster_attack s m u).1.last_room_fled = s.last_room_fled) ∧
    (∀ (s : GameState) (p : Potion),
        (handle_drink_potion s p).1.last_room_fled = s.last_room_fled) ∧
    (∀ (s : GameState) (w : Weapon),
        (handle_equip_weapon s w).1.last_room_fled = s.last_room_fled) := by
  refine ⟨can_flee_room_iff, ?_, handle_next_room_fled_one, handle_next_room_fled_nil,
    ?_, ?_, ?_⟩
  · intro s h
    rw [handle_flee_room_eq s h]
    refine ⟨rfl, rfl, can_flee_room_false_of_fled _ rfl, ?_, ?_⟩
    · rw [handle_next_room_fled_nil _ rfl]
    · exact can_flee_room_false_of_fled _ (by rw [handle_next_room_fled_nil _ rfl])
  · intro s m u
    cases u <;> rcases he : s.player.equipped with _ | w <;>
      simp only [handle_monster_attack, he] <;>
      rcases hi : s.room.interacted (AnyCard.monster m) with _ | r2 <;>
      simp [hi]
  · intro s p
    rcases hi : ({ s.room with potions_used := s.room.potions_used + 1 } : Room).interacted
        (AnyCard.potion p) with _ | r2 <;>
      simp [handle_drink_potion, hi]
  · intro s w
    by_cases hc : can_equip_weapon s w = true
    · simp only [handle_equip_weapon, hc]
      rcases hi : s.room.interacted (AnyCard.weapon w) with _ | r2 <;> simp [hi]
    · simp [handle_equip_weapon, Bool.eq_false_iff.mpr hc]

end StandardRulesEngine

end Scoundrel

namespace Scoundrel

namespace StandardRulesEngine

/-! Helper lemmas about the combat and potion handlers. -/

theorem handle_monster_attack_life (s : GameState) (m : Monster) (u : Bool) :
    (handle_monster_attack s m u).1.player.current_life =
      s.player.current_life - (preview_attack s m u).damage_taken := by
  cases u <;> rcases he : s.player.equipped with _ | w <;>
    simp only [handle_monster_attack, he] <;>
    rcases hi : s.room.interacted (AnyCard.monster m) with _ | r2 <;>
    simp [hi]

theorem handle_monster_attack_equipped_some (s : GameState) (m : Monster)
    (w : EquippedWeapon) (he : s.player.equipped = some w) :
    (handle_monster_attack s m true).1.player.equipped =
      some { w with slain_monsters := w.slain_monsters ++ [m] } := by
  simp only [handle_monster_attack, he]
  rcases hi : s.room.interacted (AnyCard.monster m) with _ | r2 <;> simp [hi]

theorem handle_monster_attack_equipped_bare (s : GameState) (m : Monster) :
    (handle_monster_attack s m false).1.player.equipped = s.player.equipped := by
  rcases he : s.player.equipped with _ | w <;>
    simp only [handle_monster_attack, he] <;>
    rcases hi : s.room.interacted (AnyCard.monster m) with _ | r2 <;>
    simp [hi, he]

theorem handle_monster_attack_equipped_none (s : GameState) (m : Monster) (u : Bool)
    (he : s.player.equipped = none) :
    (handle_monster_attack s m u).1.player.equipped = none := by
  cases u <;> simp only [handle_monster_attack, he] <;>
    rcases hi : s.room.interacted (AnyCard.monster m) with _ | r2 <;>
    simp [hi, he]

theorem handle_monster_attack_raises (s : GameState) (m : Monster) (u : Bool)
    (hn : s.room.interacted (AnyCard.monster m) = none) :
    (handle_monster_attack s m u).2 = true ∧
    (handle_monster_attack s m u).1.room = s.room := by
  cases u <;> rcases he : s.player.equipped with _ | w <;>
    simp only [handle_monster_attack, he] <;> simp [hn]

theorem handle_monster_attack_slain_discard (s : GameState) (m : Monster) (u : Bool) :
    (handle_monster_attack s m u).1.slain_monsters = s.slain_monsters ∧
    (handle_monster_attack s m u).1.discard_pile = s.discard_pile := by
  cases u <;> rcases he : s.player.equipped with _ | w <;>
    simp only [handle_monster_attack, he] <;>
    rcases hi : s.room.interacted (AnyCard.monster m) with _ | r2 <;>
    simp [hi]

theorem handle_drink_potion_eq (s : GameState) (p : Potion) (r2 : Room)
    (hi : ({ s.room with potions_used := s.room.potions_used + 1 } : Room).interacted
        (AnyCard.potion p) = some r2) :
    handle_drink_potion s p =
      ({ s with
          player := { s.player with current_life :=
            s.player.current_life + (preview_potion s p).healing_received },
          room := r2 }, false) := by
  simp [handle_drink_potion, hi]

theorem handle_drink_potion_slain_discard (s : GameState) (p : Potion) :
    (handle_drink_potion s p).1.slain_monsters = s.slain_monsters ∧
    (handle_drink_potion s p).1.discard_pile = s.discard_pile := by
  rcases hi : ({ s.room with potions_used := s.room.potions_used + 1 } : Room).interacted
      (AnyCard.potion p) with _ | r2 <;>
    simp [handle_drink_potion, hi]

theorem handle_equip_weapon_slain_discard (s : GameState) (w : Weapon) :
    (handle_equip_weapon s w).1.slain_monsters = s.slain_monsters ∧
    (handle_equip_weapon s w).1.discard_pile = s.discard_pile := by
  by_cases hc : can_equip_weapon s w = true
  · simp only [handle_equip_weapon, hc]
    rcases hi : s.room.interacted (AnyCard.weapon w) with _ | r2 <;> simp [hi]
  · simp [handle_equip_weapon, Bool.eq_false_iff.mpr hc]

theorem handle_flee_room_slain_discard (s : GameState) :
    (handle_flee_room s).slain_monsters = s.slain_monsters ∧
    (handle_flee_room s).discard_pile = s.discard_pile := by
  by_cases hc : can_flee_room s = true
  · simp [handle_flee_room, hc]
  · simp [handle_flee_room, Bool.eq_false_iff.mpr hc]

theorem handle_next_room_slain_discard (s : GameState) :
    (handle_next_room s).slain_monsters = s.slain_monsters ∧
    (handle_next_room s).discard_pile = s.discard_pile := by
  by_cases ha : next_room_available s = true
  · by_cases h0 : s.room.cards.length = 0 <;> simp [handle_next_room, ha, h0]
  · simp [handle_next_room, Bool.eq_false_iff.mpr ha]

end StandardRulesEngine

end Scoundrel

namespace Scoundrel

namespace StandardRulesEngine

/-- Claim C3: `preview_attack` reports the monster's full strength when
fighting bare-handed, when no weapon is equipped, or when the equipped
weapon is ineffective; otherwise `max 0 (strength − protection)`;
`is_lethal` holds exactly when the damage reaches `current_life`; and a
weapon is effective exactly when it has slain nothing yet or the monster's
rank is strictly below the rank of the most recently slain monster (equal
rank is ineffective). -/
theorem preview_attack_spec :
    (∀ (s : GameState) (m : Monster),
        (preview_attack s m false).damage_taken = m.strength) ∧
    (∀ (s : GameState) (m : Monster) (u : Bool), s.player.equipped = none →
        (preview_attack s m u).damage_taken = m.strength) ∧
    (∀ (s : GameState) (m : Monster) (u : Bool) (w : EquippedWeapon),
        s.player.equipped = some w → weapon_effective m w = false →
        (preview_attack s m u).damage_taken = m.strength) ∧
    (∀ (s : GameState) (m : Monster) (w : EquippedWeapon),
        s.player.equipped = some w → weapon_effective m w = true →
        (preview_attack s m true).damage_taken =
          max 0 (m.strength - w.weapon.protection)) ∧
    (∀ (s : GameState) (m : Monster) (u : Bool),
        (preview_attack s m u).is_lethal = true ↔
          (preview_attack s m u).damage_taken ≥ s.player.current_life) ∧
    (∀ (m : Monster) (w : EquippedWeapon),
        weapon_effective m w = true ↔
          (w.slain_monsters = [] ∨
            ∃ last, w.slain_monsters.getLast? = some last ∧ m.rank < last.rank)) := by
  refine ⟨?_, ?_, ?_, ?_, ?_, ?_⟩
  · intro s m
    simp [preview_attack, monster_damage]
  · intro s m u h
    cases u <;> simp [preview_attack, monster_damage, h]
  · intro s m u w h hw
    cases u <;> simp [preview_attack, monster_damage, h, hw]
  · intro s m w h hw
    simp [preview_attack, monster_damage, h, hw]
  · intro s m u
    simp [preview_attack]
  · intro m w
    unfold weapon_effective EquippedWeapon.last_slain_monster
    rcases hl : w.slain_monsters.getLast? with _ | last
    · simp [hl, List.getLast?_eq_none_iff.mp hl]
    · have hne : w.slain_monsters ≠ [] := by
        intro he
        rw [he] at hl
        cases hl
      simp [hl, hne]

/-- Claim C4 (counterexample): in `sPotUsed` — life 18 of 20, a rank-5
potion present in the room, `potions_used = 1` — the sum 18 + 5 exceeds
`max_life` 20, yet drinking heals nothing (the previewed healing is 0
because a potion was already used this room): life stays 18 instead of
reaching `max_life`, refuting the claim as quantified over every state
with `current_life ≤ max_life` and a potion present. -/
theorem drink_potion_cap_cex :
    sPotUsed.player.current_life ≤ sPotUsed.player.max_life ∧
    sPotUsed.room.exists_card (AnyCard.potion potionD) = true ∧
    sPotUsed.player.current_life + potionD.potency > sPotUsed.player.max_life ∧
    (handle_drink_potion sPotUsed potionD).1.player.current_life = 18 ∧
    ¬ (handle_drink_potion sPotUsed potionD).1.player.current_life =
        sPotUsed.player.max_life := by
  decide

/-- Claim C4 (amended): for every state with `current_life ≤ max_life` and
a potion present in the room, `preview_potion` reports healing 0 when
`potions_used > 0` and otherwise `min max_life (current_life + potency) −
current_life`; `handle_drink_potion` adds exactly the previewed healing,
so life never exceeds `max_life` and — when no potion has yet been used in
the room — reaches exactly `max_life` whenever `current_life + potency`
would exceed it; it increments `potions_used` by 1 unconditionally and
removes the potion from the room. -/
theorem drink_potion_heals_amended (s : GameState) (p : Potion)
    (hle : s.player.current_life ≤ s.player.max_life)
    (hex : s.room.exists_card (AnyCard.potion p) = true) :
    (s.room.potions_used > 0 → (preview_potion s p).healing_received = 0) ∧
    (s.room.potions_used = 0 →
      (preview_potion s p).healing_received =
        min s.player.max_life (s.player.current_life + p.potency) -
          s.player.current_life) ∧
    (handle_drink_potion s p).1.player.current_life =
      s.player.current_life + (preview_potion s p).healing_received ∧
    (handle_drink_potion s p).1.player.current_life ≤ s.player.max_life ∧
    (s.room.potions_used = 0 →
      s.player.current_life + p.potency > s.player.max_life →
      (handle_drink_potion s p).1.player.current_life = s.player.max_life) ∧
    (handle_drink_potion s p).2 = false ∧
    (handle_drink_potion s p).1.room.potions_used = s.room.potions_used + 1 ∧
    (handle_drink_potion s p).1.room.cards.length + 1 = s.room.cards.length := by
  have hex2 : ({ s.room with potions_used := s.room.potions_used + 1 } : Room).exists_card
      (AnyCard.potion p) = true := hex
  obtain ⟨r2, hi, hlen, hpu⟩ :=
    Room.interacted_of_exists _ (AnyCard.potion p) hex2
  rw [handle_drink_potion_eq s p r2 hi]
  have hprev0 : s.room.potions_used > 0 → (preview_potion s p).healing_received = 0 := by
    intro h
    simp [preview_potion, h]
  have hprev1 : s.room.potions_used = 0 →
      (preview_potion s p).healing_received =
        min s.player.max_life (s.player.current_life + p.potency) -
          s.player.current_life := by
    intro h
    simp [preview_potion, h]
  refine ⟨hprev0, hprev1, rfl, ?_, ?_, rfl, hpu, hlen⟩
  · rcases Nat.eq_zero_or_pos s.room.potions_used with h | h
    · have hmin := min_le_left s.player.max_life (s.player.current_life + p.potency)
      have hp1 := hprev1 h
      dsimp only
      omega
    · have hp0 := hprev0 h
      dsimp only
      omega
  · intro h0 hgt
    have hp1 := hprev1 h0
    have hmin : min s.player.max_life (s.player.current_life + p.potency) =
        s.player.max_life := min_eq_left (by omega)
    dsimp only
    omega

/-- Claim C4 (witness): at `sPotFresh` — life 15 of 20, a fresh rank-8
potion, no potion used yet — the amended theorem applies with its
hypotheses discharged by computation: 15 + 8 exceeds 20, so drinking caps
life at exactly 20. -/
theorem drink_potion_heals_amended_witness :
    (handle_drink_potion sPotFresh potionH).1.player.current_life = 20 := by
  have h := drink_potion_heals_amended sPotFresh potionH (by decide) (by decide)
  exact (h.2.2.2.2.1 (by decide) (by decide)).trans (by decide)

/-- Claim C8: neither failing handler is atomic on error. Drinking a
potion absent from the room raises (second component `true`) only after
`current_life` was already increased by the previewed healing and
`potions_used` was already incremented; attacking an absent monster raises
only after the damage was applied (and, with a weapon in use, after the
monster was appended to the weapon's slain history) — the room itself is
left unchanged by the failing removal. -/
theorem handlers_not_atomic_on_error :
    (∀ (s : GameState) (p : Potion), s.room.exists_card (AnyCard.potion p) = false →
        handle_drink_potion s p =
          ({ s with
              player := { s.player with current_life :=
                s.player.current_life + (preview_potion s p).healing_received },
              room := { s.room with potions_used := s.room.potions_used + 1 } }, true)) ∧
    (∀ (s : GameState) (m : Monster) (u : Bool),
        s.room.exists_card (AnyCard.monster m) = false →
        (handle_monster_attack s m u).2 = true ∧
        (handle_monster_attack s m u).1.room = s.room ∧
        (handle_monster_attack s m u).1.player.current_life =
          s.player.current_life - (preview_attack s m u).damage_taken ∧
        (∀ w : EquippedWeapon, s.player.equipped = some w →
            (handle_monster_attack s m true).1.player.equipped =
              some { w with slain_monsters := w.slain_monsters ++ [m] })) := by
  constructor
  · intro s p hex
    have hn : ({ s.room with potions_used := s.room.potions_used + 1 } : Room).interacted
        (AnyCard.potion p) = none :=
      Room.interacted_eq_none _ _ hex
    simp [handle_drink_potion, hn]
  · intro s m u hex
    have hn : s.room.interacted (AnyCard.monster m) = none :=
      Room.interacted_eq_none _ _ hex
    exact ⟨(handle_monster_attack_raises s m u hn).1,
      (handle_monster_attack_raises s m u hn).2,
      handle_monster_attack_life s m u,
      fun w he => handle_monster_attack_equipped_some s m w he⟩

/-- Claim C9: no engine operation ever modifies the game state's global
`slain_monsters` history or `discard_pile` (so `total_slain_count` is
unchanged by every handler); `handle_monster_attack` appends the slain
monster only to the equipped weapon's own list, and only when a weapon is
used and equipped. -/
theorem handlers_frame_slain_discard :
    (∀ (s : GameState) (m : Monster) (u : Bool),
        (handle_monster_attack s m u).1.slain_monsters = s.slain_monsters ∧
        (handle_monster_attack s m u).1.discard_pile = s.discard_pile ∧
        (handle_monster_attack s m u).1.total_slain_count = s.total_slain_count) ∧
    (∀ (s : GameState) (p : Potion),
        (handle_drink_potion s p).1.slain_monsters = s.slain_monsters ∧
        (handle_drink_potion s p).1.discard_pile = s.discard_pile ∧
        (handle_drink_potion s p).1.total_slain_count = s.total_slain_count) ∧
    (∀ (s : GameState) (w : Weapon),
        (handle_equip_weapon s w).1.slain_monsters = s.slain_monsters ∧
        (handle_equip_weapon s w).1.discard_pile = s.discard_pile) ∧
    (∀ s : GameState,
        (handle_flee_room s).slain_monsters = s.slain_monsters ∧
        (handle_flee_room s).discard_pile = s.discard_pile) ∧
    (∀ s : GameState,
        (handle_next_room s).slain_monsters = s.slain_monsters ∧
        (handle_next_room s).discard_pile = s.discard_pile) ∧
    (∀ (s : GameState) (m : Monster) (w : EquippedWeapon),
        s.player.equipped = some w →
        (handle_monster_attack s m true).1.player.equipped =
          some { w with slain_monsters := w.slain_monsters ++ [m] }) ∧
    (∀ (s : GameState) (m : Monster),
        (handle_monster_attack s m false).1.player.equipped = s.player.equipped) ∧
    (∀ (s : GameState) (m : Monster) (u : Bool), s.player.equipped = none →
        (handle_monster_attack s m u).1.player.equipped = none) := by
  refine ⟨?_, ?_, handle_equip_weapon_slain_discard, handle_flee_room_slain_discard,
    handle_next_room_slain_discard, handle_monster_attack_equipped_some,
    handle_monster_attack_equipped_bare, handle_monster_attack_equipped_none⟩
  · intro s m u
    obtain ⟨h1, h2⟩ := handle_monster_attack_slain_discard s m u
    exact ⟨h1, h2, congrArg List.length h1⟩
  · intro s p
    obtain ⟨h1, h2⟩ := handle_drink_potion_slain_discard s p
    exact ⟨h1, h2, congrArg List.length h1⟩

end StandardRulesEngine

end Scoundrel
